import Mathlib

/-!
Verification development for `typhonjs-github-inspect-orgs`, a compound-query
client over the GitHub REST API.  The definitions below are a shallow
embedding of the repository's source (the modern ES6 version of
`GitHubInspectOrgs` together with its normalization modules); the theorems
settle the specification claims about credential parsing, the rate-limit
gate, the normalization engine, statistics handling, user flattening, and
the repo-file side fetch.
-/

deriving instance DecidableEq for Except

namespace InspectOrgs

/-- JS `string.split(sep)` on a one-character separator, at the character
level: the (non-empty) list of segments between occurrences of `sep`. -/
def splitOnChar (sep : Char) : List Char → List (List Char)
  | [] => [[]]
  | c :: rest =>
    if c = sep then [] :: splitOnChar sep rest
    else
      match splitOnChar sep rest with
      | [] => [[c]]
      | p :: ps => (c :: p) :: ps

/-- JS `string.split(sep)` for a one-character separator, as strings. -/
def jsSplit (sep : Char) (s : String) : List String :=
  (splitOnChar sep s.toList).map List.asString

/-- JS `string.indexOf(ch) >= 0`. -/
def jsContainsChar (sep : Char) (s : String) : Bool :=
  s.toList.contains sep

/-! ### Credential resolution (`s_CREATE_CREDENTIALS`)

The JS function receives either a string (token or `username:password`) or an
already-built credential object hash.  Object fields in JS may be a string,
`null`, or absent (`undefined`); `JField` mirrors that. -/

/-- A JS object field that holds a string, `null`, or is absent. -/
inductive JField where
  | undef : JField
  | null : JField
  | str (s : String) : JField
deriving DecidableEq, Repr

/-- A credential object hash as built or accepted by `s_CREATE_CREDENTIALS`:
`{ type, username, password, token }`, each field possibly absent. -/
structure CredObj where
  type : JField := .undef
  username : JField := .undef
  password : JField := .undef
  token : JField := .undef
deriving DecidableEq, Repr

/-- The `tokenOrPass` argument: a string, an object hash, or any other JS
value (neither string nor object). -/
inductive TokenOrPass where
  | str (s : String) : TokenOrPass
  | obj (o : CredObj) : TokenOrPass
  | other : TokenOrPass
deriving DecidableEq, Repr

/-- JS truthiness/emptiness helper used by the validation checks
`typeof f === 'undefined' || f === null || f === ''`. -/
def JField.isMissing : JField → Bool
  | .undef => true
  | .null => true
  | .str s => s = ""

/-- The validation block at the end of `s_CREATE_CREDENTIALS`: checks the
`basic` / `oauth` shape and returns the credential unchanged on success.
The first `basic` check is transcribed verbatim from the source, which tests
`credential.password === null` inside the username clause. -/
def s_VALIDATE_CREDENTIAL (credential : CredObj) : Except String CredObj :=
  if credential.type = .str "basic" then
    if credential.username = .undef ∨ credential.password = .null ∨
        credential.username = .str "" then
      .error "s_CREATE_CREDENTIALS error: 'credential.username' is undefined or empty."
    else if credential.password = .undef ∨ credential.password = .null ∨
        credential.password = .str "" then
      .error "s_CREATE_CREDENTIALS error: 'credential.password' is undefined or empty."
    else .ok credential
  else if credential.type = .str "oauth" then
    if credential.token = .undef ∨ credential.token = .null ∨
        credential.token = .str "" then
      .error "s_CREATE_CREDENTIALS error: 'credential.username' is undefined or empty."
    else .ok credential
  else .error "s_CREATE_CREDENTIALS error: missing or unknown credential type."

/-- The construction phase of `s_CREATE_CREDENTIALS`.  For a string input:
empty string throws; a string containing `:` is split with JS
`split(':', 2)` — the first two components of the full split, so the
password is the segment between the first and the second `:` — into a
`basic` credential; otherwise the whole string becomes an `oauth` token.
An object input is passed through; any other value throws. -/
def s_BUILD_CREDENTIAL (tokenOrPass : TokenOrPass) : Except String CredObj :=
  match tokenOrPass with
  | .str s =>
    if s = "" then
      .error "s_CREATE_CREDENTIALS error: 'tokenOrPass' is an empty string."
    else if jsContainsChar ':' s then
      let partials := jsSplit ':' s
      .ok { type := .str "basic", username := .str (partials.getD 0 ""),
            password := .str (partials.getD 1 "") }
    else
      .ok { type := .str "oauth", token := .str s }
  | .obj o => .ok o
  | .other =>
    .error "s_CREATE_CREDENTIALS error: 'tokenOrPass' is not an 'object' or a 'string'."

/-- `s_CREATE_CREDENTIALS`: build (or pass through) the credential, then
validate it; on success the validated credential itself is returned. -/
def s_CREATE_CREDENTIALS (tokenOrPass : TokenOrPass) : Except String CredObj :=
  match s_BUILD_CREDENTIAL tokenOrPass with
  | .error e => .error e
  | .ok credential => s_VALIDATE_CREDENTIAL credential

/-- Specification-side description of string parsing, used to state the
amended claim C2: split on `:`; the username is the part before the first
`:` and the password the part between the first and second `:` (JS
`split(':', 2)` semantics); empty username or password fails, as does the
empty input string; a string without `:` yields an `oauth` token. -/
def credStringSpec (s : String) : Except String CredObj :=
  if s = "" then
    .error "s_CREATE_CREDENTIALS error: 'tokenOrPass' is an empty string."
  else if jsContainsChar ':' s then
    let u := (jsSplit ':' s).getD 0 ""
    let p := (jsSplit ':' s).getD 1 ""
    if u = "" then
      .error "s_CREATE_CREDENTIALS error: 'credential.username' is undefined or empty."
    else if p = "" then
      .error "s_CREATE_CREDENTIALS error: 'credential.password' is undefined or empty."
    else
      .ok { type := .str "basic", username := .str u, password := .str p }
  else
    .ok { type := .str "oauth", token := .str s }

/-! ### Normalization data model

Raw GitHub user records and the records produced by `s_NORMALIZE_USER` are
both plain JS objects; `UserObj` carries the union of their fields so that a
normalized user can be written back into a raw slot (which is exactly what
the stats normalizer does to `contributor.author`). -/

/-- A JS user-like object: raw API users carry `login`/`id`/`html_url`/
`avatar_url`; normalized users carry `name`/`id`/`url`/`avatar_url`. -/
structure UserObj where
  login : Option String := none
  id : Option Int := none
  html_url : Option String := none
  avatar_url : Option String := none
  name : Option String := none
  url : Option String := none
deriving DecidableEq, Repr

/-- JS truthiness default for a numeric `id` field:
`user.id ? user.id : -1` — both an absent id and the falsy value `0`
default to `-1`. -/
def jsIdDefault (id : Option Int) : Int :=
  match id with
  | none => -1
  | some v => if v = 0 then -1 else v

/-- JS truthiness default for a string field: `f ? f : ''` — an absent field
defaults to `''`, and the only falsy string is `''` itself, so this is
`getD ""`. -/
def jsStrDefault (s : Option String) : String :=
  s.getD ""

/-- `s_NORMALIZE_USER`: build a fresh `{name, id, url, avatar_url}` object
from a user-like object.  The fresh object carries no `login`/`html_url`. -/
def s_NORMALIZE_USER (user : UserObj) : UserObj :=
  { name := some (jsStrDefault user.login),
    id := some (jsIdDefault user.id),
    url := some (jsStrDefault user.html_url),
    avatar_url := some (jsStrDefault user.avatar_url) }

/-- A contributor-statistics element: `{author, total, ...}`; `weeks` data is
irrelevant to the claims and summarized by `total`. -/
structure Contributor where
  author : Option UserObj := none
  total : Option Int := none
deriving DecidableEq, Repr

/-- The value stored under one statistics category of a repo's
`stats[0]` object: either the async-compute placeholder (a plain object
carrying a `meta` field and no array data, GitHub's 202 response), or an
array — of contributor records, of user records, or of opaque numeric rows
(`codeFrequency`/`commitActivity`/`participation`/`punchCard` payloads).
The `meta` flag on the array forms mirrors the `meta` property the GitHub
client attaches to responses. -/
inductive StatResp where
  | meta202 : StatResp
  | contribArr (meta : Bool) (xs : List Contributor) : StatResp
  | userArr (meta : Bool) (xs : List UserObj) : StatResp
  | dataArr (meta : Bool) (xs : List Int) : StatResp
deriving DecidableEq, Repr

/-- `typeof results === 'object' && results.meta` — every `StatResp` is an
object, so the condition is just the truthiness of `meta`. -/
def StatResp.hasMeta : StatResp → Bool
  | .meta202 => true
  | .contribArr m _ => m
  | .userArr m _ => m
  | .dataArr m _ => m

/-- A repo's stats object (`repo.stats[0]`): one slot per statistics
category plus the `_resultsPending` flag (absent ≙ `false`). -/
structure Stats where
  codeFrequency : Option StatResp := none
  commitActivity : Option StatResp := none
  participation : Option StatResp := none
  punchCard : Option StatResp := none
  contributors : Option StatResp := none
  stargazers : Option StatResp := none
  watchers : Option StatResp := none
  _resultsPending : Bool := false
deriving DecidableEq, Repr

/-- In-place mutation performed by the stats normalizer on each contributor:
`if (contributor.author) { contributor.author = s_NORMALIZE_USER(contributor.author); }` -/
def mutateContrib (c : Contributor) : Contributor :=
  { c with author := c.author.map s_NORMALIZE_USER }

/-- The `contributors` branch of `s_NORMALIZE_STATS`.  A truthy value is
first passed through (`typeof === 'object'` holds for every `StatResp`);
if it is an array the branch then rebuilds a fresh array, mutating each
element's `author` in place.  Non-contributor array elements carry no
`author` field, so they are pushed through unchanged. -/
def normalizeContribResp : StatResp → StatResp
  | .meta202 => .meta202
  | .contribArr _ xs => .contribArr false (xs.map mutateContrib)
  | .userArr _ xs => .userArr false xs
  | .dataArr _ xs => .dataArr false xs

/-- The mutation the `contributors` branch leaves behind on the raw value:
the original array object (its `meta` property intact) with each element's
`author` replaced by its normalized form.  Non-array values and non-author
arrays are untouched. -/
def mutateContribResp : StatResp → StatResp
  | .contribArr m xs => .contribArr m (xs.map mutateContrib)
  | v => v

/-- The `stargazers`/`watchers` branch of `s_NORMALIZE_STATS`: a fresh plain
array of `s_NORMALIZE_USER` images.  A placeholder object has no `length`,
so the JS loop body never runs and the result is `[]`; elements of a
non-user array carry none of the user fields and normalize to the
all-default user record. -/
def normalizeUserResp : StatResp → StatResp
  | .meta202 => .userArr false []
  | .userArr _ xs => .userArr false (xs.map s_NORMALIZE_USER)
  | .contribArr _ xs => .userArr false (xs.map fun _ => s_NORMALIZE_USER {})
  | .dataArr _ xs => .userArr false (xs.map fun _ => s_NORMALIZE_USER {})

/-- `s_NORMALIZE_STATS`, returning the fresh normalized object and the
post-call value of the raw input (the source mutates each contributor's
`author` record in place; everything else is untouched). -/
def s_NORMALIZE_STATS (stats : Stats) : Stats × Stats :=
  let normStats : Stats :=
    { codeFrequency := stats.codeFrequency,
      commitActivity := stats.commitActivity,
      participation := stats.participation,
      punchCard := stats.punchCard,
      contributors := stats.contributors.map normalizeContribResp,
      stargazers := stats.stargazers.map normalizeUserResp,
      watchers := stats.watchers.map normalizeUserResp }
  let mutated : Stats :=
    { stats with contributors := stats.contributors.map mutateContribResp }
  (normStats, mutated)

/-- The normalized tree produced by `createNormalized(['stats'], data)`:
the root fields plus the per-element normalized stats array.  The
`timestamp` is the clock value captured at call time. -/
structure StatsTree where
  scm : String
  categories : String
  timestamp : Nat
  stats : List Stats
deriving DecidableEq, Repr

/-- `createNormalized(['stats'], data)` at a fixed clock `t`: the recursive
walker at a single-category path maps the category's normalize function
over the elements and wraps the result under the root object (there is no
next category, so no recursion).  Returns the tree and the post-call raw
list, threading the stats normalizer's in-place mutations. -/
def createNormalizedStats (t : Nat) (data : List Stats) : StatsTree × List Stats :=
  let pairs := data.map s_NORMALIZE_STATS
  ({ scm := "github", categories := "stats", timestamp := t,
     stats := pairs.map Prod.fst },
   pairs.map Prod.snd)

/-! ### Repository normalization (`s_NORMALIZE_REPO`) -/

/-- The `{statusCode, body}` record stored for one requested repo file. -/
structure FileResp where
  statusCode : Int
  body : String
deriving DecidableEq, Repr

/-- A raw GitHub repository record, with every field the mapping function
reads modeled as possibly absent.  `repo_files` is the hash attached by the
file side-fetch, modeled as an association list. -/
structure RawRepo where
  name : Option String := none
  full_name : Option String := none
  id : Option Int := none
  html_url : Option String := none
  description : Option String := none
  priv : Option Bool := none
  repo_files : Option (List (String × FileResp)) := none
  fork : Option Bool := none
  created_at : Option String := none
  updated_at : Option String := none
  pushed_at : Option String := none
  git_url : Option String := none
  ssh_url : Option String := none
  clone_url : Option String := none
  stargazers_count : Option Int := none
  watchers_count : Option Int := none
  default_branch : Option String := none
deriving DecidableEq, Repr

/-- The canonical repository shape produced by `s_NORMALIZE_REPO`.
(`priv` stands for the source's `private` field, a reserved word here.) -/
structure NormRepo where
  name : String
  full_name : String
  id : Int
  url : String
  description : String
  priv : Bool
  repo_files : List (String × FileResp)
  fork : Bool
  created_at : String
  updated_at : String
  pushed_at : String
  git_url : String
  ssh_url : String
  clone_url : String
  stargazers_count : Int
  watchers_count : Int
  default_branch : String
deriving DecidableEq, Repr

/-- JS truthiness default for a count field: `f ? f : 0` — absent or `0`
both yield `0`, so this is `getD 0`. -/
def jsCountDefault (n : Option Int) : Int :=
  n.getD 0

/-- `s_NORMALIZE_REPO`: every canonical field defaults deterministically
when absent — strings to `''`, the id to `-1`, booleans
(`repo.private ? repo.private : false`) to `false`, the `repo_files` hash
to `{}`, counts to `0`. -/
def s_NORMALIZE_REPO (repo : RawRepo) : NormRepo :=
  { name := jsStrDefault repo.name,
    full_name := jsStrDefault repo.full_name,
    id := jsIdDefault repo.id,
    url := jsStrDefault repo.html_url,
    description := jsStrDefault repo.description,
    priv := repo.priv.getD false,
    repo_files := repo.repo_files.getD [],
    fork := repo.fork.getD false,
    created_at := jsStrDefault repo.created_at,
    updated_at := jsStrDefault repo.updated_at,
    pushed_at := jsStrDefault repo.pushed_at,
    git_url := jsStrDefault repo.git_url,
    ssh_url := jsStrDefault repo.ssh_url,
    clone_url := jsStrDefault repo.clone_url,
    stargazers_count := jsCountDefault repo.stargazers_count,
    watchers_count := jsCountDefault repo.watchers_count,
    default_branch := jsStrDefault repo.default_branch }

/-! ### Owners (`s_NORMALIZE_OWNER`, `getOwners`) -/

/-- One configured organization source: `{credential, owner, regex}`.
The credential and regex play no role in `getOwners`. -/
structure OrgSource where
  credential : CredObj := {}
  owner : String
deriving DecidableEq, Repr

/-- A normalized owner entry `{name, url}`. -/
structure NormOwner where
  name : String
  url : String
deriving DecidableEq, Repr

/-- `s_NORMALIZE_OWNER`: `name` is the configured owner string (`''` stays
`''` under the truthiness default) and `url` is the host-URL prefix
followed by the name. -/
def s_NORMALIZE_OWNER (hostUrl : String) (src : OrgSource) : NormOwner :=
  { name := jsStrDefault (some src.owner), url := hostUrl ++ jsStrDefault (some src.owner) }

/-- The normalized tree produced by `createNormalized(['owners'], sources)`. -/
structure OwnersTree where
  scm : String
  categories : String
  timestamp : Nat
  owners : List NormOwner
deriving DecidableEq, Repr

/-- `createNormalized(['owners'], sources)` at fixed clock `t`: map the
owner mapping function over the configured sources and wrap the root. -/
def createNormalizedOwners (hostUrl : String) (t : Nat) (sources : List OrgSource) :
    OwnersTree :=
  { scm := "github", categories := "owners", timestamp := t,
    owners := sources.map (s_NORMALIZE_OWNER hostUrl) }

/-- The `{normalized, raw}` pair `getOwners` resolves with.  Both fields
have the tree type because the source resolves with the same object twice. -/
structure OwnersResult where
  normalized : OwnersTree
  raw : OwnersTree
deriving DecidableEq, Repr

/-- `getOwners`: builds the normalized owners tree from the configured
organization sources (no network fetch), sorts its `owners` array in place
by name, and resolves with `{normalized, raw: normalized}` — the same tree
under both keys.  The JS sort is modeled by `insertionSort` under the
locale comparator `lc` (`a.name.localeCompare(b.name) <= 0`). -/
def getOwners (hostUrl : String) (t : Nat) (lc : String → String → Bool)
    (sources : List OrgSource) : OwnersResult :=
  let tree := createNormalizedOwners hostUrl t sources
  let sorted :=
    { tree with owners := tree.owners.insertionSort fun a b => lc a.name b.name }
  { normalized := sorted, raw := sorted }

/-! ### Rate-limit gate (`s_IS_RATE_LIMIT_REACHED`) -/

/-- The `core` quota block of a rate-limit response. -/
structure CoreQuota where
  remaining : Int
  reset : Int
deriving DecidableEq, Repr

/-- The `resources` block of a rate-limit response; `core` may be absent. -/
structure ResourcesObj where
  core : Option CoreQuota := none
deriving DecidableEq, Repr

/-- A rate-limit response: `res.resources` and `res.resources.core` may each
be absent. -/
structure RateLimitRes where
  resources : Option ResourcesObj := none
deriving DecidableEq, Repr

/-- The rejection message built for an exhausted owner (the `Date`
rendering is abstracted to the millisecond value `reset * 1000`). -/
def rateLimitMsg (owner : String) (reset : Int) : String :=
  "GitHub API rate limit reached for organization owner: '" ++ owner ++
    "'; please try again at: '" ++ toString (reset * 1000) ++ "'."

/-- One organization source paired with the transport's rate-limit response
for its credential (`Except` error ≙ the API callback's `err`). -/
def RateChecks := List (OrgSource × Except String RateLimitRes)

/-- The per-source loop body of `s_IS_RATE_LIMIT_REACHED`, iterated over
every configured source.  A transport error rejects.  Otherwise the source
tests `res.resources && res.resources.core && res.resources.core.remaining`
— a truthiness guard, so `remaining` must be a nonzero number — and only
then rejects when `remaining <= 0`. -/
def rateCheckStep (src : OrgSource) (res : Except String RateLimitRes) :
    Except String Unit :=
  match res with
  | .error e => .error ("s_IS_RATE_LIMIT_REACHED: unknown error - " ++ e)
  | .ok r =>
    match r.resources with
    | none => .ok ()
    | some resources =>
      match resources.core with
      | none => .ok ()
      | some core =>
        if core.remaining ≠ 0 then
          if core.remaining ≤ 0 then .error (rateLimitMsg src.owner core.reset)
          else .ok ()
        else .ok ()

/-- `s_IS_RATE_LIMIT_REACHED`: early-out when `skipRateLimitCheck` is set;
otherwise run the per-source check over every configured source and resolve
`false` when none rejected (the source then marks the options hash with
`skipRateLimitCheck = true`; the flag is not needed by the claims). -/
def s_IS_RATE_LIMIT_REACHED (skip : Bool) (checks : RateChecks) :
    Except String Bool :=
  if skip then .ok false
  else
    match checks.foldl (fun acc c => acc >>= fun _ => rateCheckStep c.1 c.2) (.ok ()) with
    | .error e => .error e
    | .ok _ => .ok false

/-! ### Repo-file side fetch (`s_CREATE_REPO_FILE_PROMISES`) -/

/-- The repo fields the side fetch reads, plus the `repo_files` hash it
writes. -/
structure RepoF where
  full_name : String
  default_branch : String
  repo_files : List (String × FileResp) := []
deriving DecidableEq, Repr

/-- The exact URL requested for one repo and file path:
`` `${rawUrlPrefix}${repo.full_name}/${repo.default_branch}/${filePath}` ``. -/
def repoFileUrl (rawUrl : String) (repo : RepoF) (filePath : String) : String :=
  rawUrl ++ repo.full_name ++ "/" ++ repo.default_branch ++ "/" ++ filePath

/-- Association-list lookup mirroring a JS hash read. -/
def assocLookup (entries : List (String × FileResp)) (key : String) :
    Option FileResp :=
  match entries with
  | [] => none
  | e :: rest => if e.1 = key then some e.2 else assocLookup rest key

/-- The per-repo body of `s_CREATE_REPO_FILE_PROMISES`: reset `repo_files`
to `{}` and record, for every requested path, the transport's
`{statusCode, body}` response to the exact raw-content URL — verbatim,
whatever the status code.  Every promise resolves unconditionally. -/
def s_PROCESS_REPO_FILES (rawUrl : String) (repoFiles : List String)
    (fetchFile : String → FileResp) (repo : RepoF) : RepoF :=
  { repo with
    repo_files := repoFiles.map fun p => (p, fetchFile (repoFileUrl rawUrl repo p)) }

/-- `s_CREATE_REPO_FILE_PROMISES` joined with its enclosing `Promise.all`:
process every repo; since each file promise resolves unconditionally
(non-200 responses included), the stage never rejects, which the `Except`
result makes explicit. -/
def s_CREATE_REPO_FILE_PROMISES (rawUrl : String) (repoFiles : List String)
    (fetchFile : String → FileResp) (repos : List RepoF) :
    Except String (List RepoF) :=
  .ok (repos.map (s_PROCESS_REPO_FILES rawUrl repoFiles fetchFile))

/-! ### Statistics orchestration (`getOrgRepoStats`)

The model covers the stats stage of `getOrgRepoStats`: it receives the
org/repo aggregate produced by `getOrgRepos`, resets each repo's stats,
validates the requested categories while collecting one fetch per
repo/category (the synchronous loop in the source, which throws on an
unknown category), then joins the fetches, updating each repo's
`stats[0]` object per response. -/

/-- A repository inside the org/repo aggregate. -/
structure RepoR where
  name : String
  stats : List Stats := []
deriving DecidableEq, Repr

/-- An organization inside the org/repo aggregate. -/
structure OrgR where
  login : String
  repos : List RepoR := []
deriving DecidableEq, Repr

/-- `s_STAT_CATEGORY_TO_FUNCT`: the hash from the seven known statistic
categories to the GitHub client function name. -/
def s_STAT_CATEGORY_TO_FUNCT (category : String) : Option String :=
  if category = "codeFrequency" then some "getStatsCodeFrequency"
  else if category = "commitActivity" then some "getStatsCommitActivity"
  else if category = "contributors" then some "getStatsContributors"
  else if category = "participation" then some "getStatsParticipation"
  else if category = "punchCard" then some "getStatsPunchCard"
  else if category = "stargazers" then some "getStargazers"
  else if category = "watchers" then some "getWatchers"
  else none

/-- Wildcard handling: exactly `['all']` expands to the seven known
categories. -/
def expandCategories (categories : List String) : List String :=
  if categories = ["all"] then
    ["codeFrequency", "commitActivity", "contributors", "participation",
     "punchCard", "stargazers", "watchers"]
  else categories

/-- The error thrown for an unknown statistics category. -/
def unknownCatMsg (category : String) : String :=
  "getOrgRepoStats error: unknown category '" ++ category ++ "'."

/-- One pending statistics fetch: org index, repo index, category. -/
structure StatReq where
  oIdx : Nat
  rIdx : Nat
  category : String
deriving DecidableEq, Repr

/-- `repo.stats[0][category] = results` — store a response under its
category slot.  Only the seven known categories ever reach this write. -/
def storeStat (s : Stats) (category : String) (resp : StatResp) : Stats :=
  if category = "codeFrequency" then { s with codeFrequency := some resp }
  else if category = "commitActivity" then { s with commitActivity := some resp }
  else if category = "participation" then { s with participation := some resp }
  else if category = "punchCard" then { s with punchCard := some resp }
  else if category = "contributors" then { s with contributors := some resp }
  else if category = "stargazers" then { s with stargazers := some resp }
  else if category = "watchers" then { s with watchers := some resp }
  else s

/-- The fetch callback body: a response carrying `meta` (GitHub still
computing the statistics) first sets `_resultsPending` on the repo's stats
object, then the response is stored under its category. -/
def applyStatResult (s : Stats) (category : String) (resp : StatResp) : Stats :=
  let s1 := if resp.hasMeta then { s with _resultsPending := true } else s
  storeStat s1 category resp

/-- Category scan for one repo: collect one request per category in order,
throwing `unknownCatMsg` at the first category missing from
`s_STAT_CATEGORY_TO_FUNCT`. -/
def buildRepoReqs (oIdx rIdx : Nat) (cats : List String) :
    Except String (List StatReq) :=
  match cats with
  | [] => .ok []
  | c :: rest =>
    if (s_STAT_CATEGORY_TO_FUNCT c).isSome then
      match buildRepoReqs oIdx rIdx rest with
      | .error e => .error e
      | .ok reqs => .ok (⟨oIdx, rIdx, c⟩ :: reqs)
    else .error (unknownCatMsg c)

/-- Per-org phase: reset each repo's stats to `[{}]` and scan the category
list per repo. -/
def buildRepoPhase (oIdx rIdx : Nat) (repos : List RepoR) (cats : List String) :
    Except String (List RepoR × List StatReq) :=
  match repos with
  | [] => .ok ([], [])
  | r :: rest =>
    match buildRepoReqs oIdx rIdx cats with
    | .error e => .error e
    | .ok reqs =>
      match buildRepoPhase oIdx (rIdx + 1) rest cats with
      | .error e => .error e
      | .ok (rs, reqs2) => .ok ({ r with stats := [{}] } :: rs, reqs ++ reqs2)

/-- The synchronous loop over the whole aggregate. -/
def buildOrgPhase (oIdx : Nat) (orgs : List OrgR) (cats : List String) :
    Except String (List OrgR × List StatReq) :=
  match orgs with
  | [] => .ok ([], [])
  | o :: rest =>
    match buildRepoPhase oIdx 0 o.repos cats with
    | .error e => .error e
    | .ok (rs, reqs) =>
      match buildOrgPhase (oIdx + 1) rest cats with
      | .error e => .error e
      | .ok (os, reqs2) => .ok ({ o with repos := rs } :: os, reqs ++ reqs2)

/-- Replace the `i`-th element of a list by its image under `f`. -/
def listModify (f : α → α) : Nat → List α → List α
  | _, [] => []
  | 0, x :: xs => f x :: xs
  | n + 1, x :: xs => x :: listModify f n xs

/-- Apply one fetched response to the aggregate: update `stats[0]` of the
addressed repo. -/
def applyReqResult (orgs : List OrgR) (req : StatReq) (resp : StatResp) :
    List OrgR :=
  listModify
    (fun o =>
      { o with
        repos :=
          listModify
            (fun r =>
              { r with
                stats :=
                  match r.stats with
                  | [] => []
                  | s :: rest => applyStatResult s req.category resp :: rest })
            req.rIdx o.repos })
    req.oIdx orgs

/-- Join of the statistics fetches: any transport rejection rejects the
aggregate (`Promise.all`); otherwise each response is applied in order. -/
def runStatReqs (fetch : Nat → Nat → String → Except String StatResp)
    (orgs : List OrgR) (reqs : List StatReq) : Except String (List OrgR) :=
  match reqs with
  | [] => .ok orgs
  | req :: rest =>
    match fetch req.oIdx req.rIdx req.category with
    | .error e => .error e
    | .ok resp => runStatReqs fetch (applyReqResult orgs req resp) rest

/-- The stats stage of `getOrgRepoStats`, from the fetched org/repo
aggregate onwards: expand the wildcard, run the synchronous
validation/collection loop, then execute and apply the fetches. -/
def getOrgRepoStats (categories : List String) (orgs : List OrgR)
    (fetch : Nat → Nat → String → Except String StatResp) :
    Except String (List OrgR) :=
  let cats := expandCategories categories
  match buildOrgPhase 0 orgs cats with
  | .error e => .error e
  | .ok (orgs2, reqs) => runStatReqs fetch orgs2 reqs

/-! ### Flattening operations (`getCollaborators`, `getContributors`,
`getMembers`)

Each walks its org/repo aggregate in iteration order, keeps the first user
seen per login, and finally sorts by `login.localeCompare`.  The locale
comparison is a parameter `lc` (a consistent comparator); the JS engine's
sort is modeled by insertion sort, which produces a sorted permutation. -/

/-- A repository inside the collaborator/contributor aggregates. -/
structure RepoC where
  collaborators : Option (List UserObj) := none
  contributors : Option (List UserObj) := none
deriving DecidableEq, Repr

/-- An organization inside the flattening aggregates. -/
structure OrgC where
  repos : Option (List RepoC) := none
  members : Option (List UserObj) := none
deriving DecidableEq, Repr

/-- The hash key used by `seenUsers[user.login]`: a JS hash key is the
string form of the value, so an absent login keys as `"undefined"`. -/
def loginKey (u : UserObj) : String :=
  u.login.getD "undefined"

/-- The dedup loop: `seen` is the set of login keys already kept; the first
occurrence of each key is pushed, later ones are skipped. -/
def dedupByLoginGo : List UserObj → List String → List UserObj
  | [], _ => []
  | u :: rest, seen =>
    if loginKey u ∈ seen then dedupByLoginGo rest seen
    else u :: dedupByLoginGo rest (loginKey u :: seen)

/-- First-occurrence deduplication by login, in iteration order. -/
def dedupByLogin (us : List UserObj) : List UserObj :=
  dedupByLoginGo us []

/-- `users.sort((a, b) => a.login.localeCompare(b.login))`, modeled as a
sorted permutation under the comparator. -/
def sortByLogin (lc : String → String → Bool) (us : List UserObj) : List UserObj :=
  us.insertionSort fun a b => lc (loginKey a) (loginKey b)

/-- Iteration order of the `getCollaborators` nested loops:
orgs → `org.repos` → `repo.collaborators`. -/
def collabStream (orgs : List OrgC) : List UserObj :=
  orgs.flatMap fun o => (o.repos.getD []).flatMap fun r => r.collaborators.getD []

/-- Iteration order of the `getContributors` nested loops. -/
def contribStream (orgs : List OrgC) : List UserObj :=
  orgs.flatMap fun o => (o.repos.getD []).flatMap fun r => r.contributors.getD []

/-- Iteration order of the `getMembers` loops: orgs → `org.members`. -/
def memberStream (orgs : List OrgC) : List UserObj :=
  orgs.flatMap fun o => o.members.getD []

/-- The flattening core of `getCollaborators`: dedup by login in iteration
order, then sort by login. -/
def getCollaborators (lc : String → String → Bool) (orgs : List OrgC) :
    List UserObj :=
  sortByLogin lc (dedupByLogin (collabStream orgs))

/-- The flattening core of `getContributors`. -/
def getContributors (lc : String → String → Bool) (orgs : List OrgC) :
    List UserObj :=
  sortByLogin lc (dedupByLogin (contribStream orgs))

/-- The flattening core of `getMembers`. -/
def getMembers (lc : String → String → Bool) (orgs : List OrgC) :
    List UserObj :=
  sortByLogin lc (dedupByLogin (memberStream orgs))

/-! ### Predicates used to state the claims -/

/-- No contributor record of the stats value carries an `author` field —
the region on which the stats normalizer performs no in-place mutation. -/
def noContribAuthors (s : Stats) : Bool :=
  match s.contributors with
  | some (.contribArr _ xs) => xs.all fun c => c.author = none
  | _ => true

/-- The claimed shape of a flattening operation's result `res` relative to
the iteration-order stream `us` it consumed: one entry per distinct login,
each entry the first occurrence of its login in `us`, every consumed login
represented, and the result sorted by the locale comparator on logins. -/
def flattenSpec (lc : String → String → Bool) (us res : List UserObj) : Prop :=
  (res.map loginKey).Nodup
  ∧ (∀ u ∈ res, us.find? (fun v => loginKey v == loginKey u) = some u)
  ∧ (∀ v ∈ us, ∃ u ∈ res, loginKey u = loginKey v)
  ∧ res.Sorted fun a b => lc (loginKey a) (loginKey b) = true

/-- A raw contributor author record used to exhibit the stats normalizer's
in-place `contributor.author` overwrite. -/
def cexUser : UserObj :=
  { login := some "alice", id := some 7,
    html_url := some "https://github.com/alice", avatar_url := some "av" }

/-- A one-element stats raw input holding `cexUser` as its single
contributor's author. -/
def cexStats : Stats :=
  { contributors := some (.contribArr true [{ author := some cexUser, total := some 3 }]) }

/-- A stats input with contributor entries but no author fields, and a
stargazers array — the author-free region where normalization is pure. -/
def pureStats : Stats :=
  { contributors := some (.contribArr false [{ total := some 3 }]),
    stargazers := some (.userArr false
      [{ login := some "bob", id := some 9 }]) }

/-- An aggregate with a duplicate login (`"zed"` appears as a collaborator
of two repos and twice among members) used to witness the flattening
claims. -/
def cexOrgs : List OrgC :=
  [{ repos := some
      [{ collaborators := some [{ login := some "zed", id := some 1 },
          { login := some "amy", id := some 4 }],
         contributors := some [{ login := some "amy", id := some 4 }] },
       { collaborators := some [{ login := some "zed", id := some 2 }] }],
     members := some [{ login := some "zed", id := some 1 },
       { login := some "zed", id := some 2 }] }]

/-- The locale comparator instantiated for witnesses: plain lexicographic
string order. -/
def lexLc (a b : String) : Bool :=
  decide (a ≤ b)

/-! ## Theorems -/

/-- Claim C1 (code bug).  The rate-limit pre-check is supposed to reject
when a source's response reports exactly zero remaining core quota, but the
truthiness guard `res.resources.core.remaining` is false at `0`, so the
inner `remaining <= 0` rejection is unreachable there: the gate resolves
`false` and the compound operation proceeds.  The second conjunct shows the
rejection branch is live for negative `remaining`, so the slip is precisely
the zero case. -/
theorem rateLimitGate_passes_at_zero_remaining :
    s_IS_RATE_LIMIT_REACHED false
        [({ owner := "alice" },
          .ok { resources := some { core := some { remaining := 0, reset := 1700 } } })]
      = .ok false
    ∧ s_IS_RATE_LIMIT_REACHED false
        [({ owner := "alice" },
          .ok { resources := some { core := some { remaining := -1, reset := 1700 } } })]
      = .error (rateLimitMsg "alice" 1700) :=
  ⟨rfl, rfl⟩

/-- Claim C2, counterexample.  On `"a:b:c"` the password is `"b"`, the
segment between the first and second `:` (JS `split(':', 2)` truncates),
not the entire substring `"b:c"` after the first `:` as the claim states. -/
theorem createCredentials_password_truncated :
    s_CREATE_CREDENTIALS (.str "a:b:c")
        = .ok { type := .str "basic", username := .str "a", password := .str "b" }
    ∧ s_CREATE_CREDENTIALS (.str "a:b:c")
        ≠ .ok { type := .str "basic", username := .str "a", password := .str "b:c" } := by
  refine ⟨rfl, ?_⟩
  decide

/-- Claim C2, amended.  Credential resolution on a string behaves as
`credStringSpec`: the empty string throws; a string with `:` resolves to a
basic credential whose username is the part before the first `:` and whose
password is the part between the first and second `:` (empty username or
password throws); a string without `:` resolves to an `oauth` token holding
the whole string. -/
theorem createCredentials_string_spec (s : String) :
    s_CREATE_CREDENTIALS (.str s) = credStringSpec s := by
  unfold s_CREATE_CREDENTIALS s_BUILD_CREDENTIAL credStringSpec
  by_cases hs : s = ""
  · simp [hs]
  · by_cases hc : jsContainsChar ':' s
    · simp only [hs, hc, if_false, if_true, ite_false, ite_true]
      unfold s_VALIDATE_CREDENTIAL
      by_cases hu : (jsSplit ':' s).getD 0 "" = ""
      · simp [hu]
      · by_cases hp : (jsSplit ':' s).getD 1 "" = ""
        · simp [hu, hp]
        · simp [hu, hp]
    · simp only [hs, hc, if_false, ite_false, ite_true]
      unfold s_VALIDATE_CREDENTIAL
      simp [hs]

/-- The validation block returns its argument unchanged on success. -/
theorem validate_ok_eq {c c' : CredObj} (h : s_VALIDATE_CREDENTIAL c = .ok c') :
    c' = c := by
  unfold s_VALIDATE_CREDENTIAL at h
  split_ifs at h <;> simp_all

/-- Claim C9.  Credential resolution is idempotent: any credential it
returns successfully passes back through with shape validation only and is
returned unchanged, so `resolve (resolve x) = resolve x` on every valid
input. -/
theorem createCredentials_idempotent (x : TokenOrPass) (c : CredObj)
    (h : s_CREATE_CREDENTIALS x = .ok c) :
    s_CREATE_CREDENTIALS (.obj c) = .ok c := by
  have hv : s_VALIDATE_CREDENTIAL c = .ok c := by
    unfold s_CREATE_CREDENTIALS at h
    cases hb : s_BUILD_CREDENTIAL x with
    | error e => rw [hb] at h; exact absurd h (by simp)
    | ok cred =>
      rw [hb] at h
      have hc : c = cred := validate_ok_eq h
      rw [hc]
      exact hc ▸ h
  unfold s_CREATE_CREDENTIALS s_BUILD_CREDENTIAL
  exact hv

/-- Witness for C9 at the token string `"abc123"`. -/
theorem createCredentials_idempotent_witness :
    s_CREATE_CREDENTIALS (.obj { type := .str "oauth", token := .str "abc123" })
      = .ok { type := .str "oauth", token := .str "abc123" } :=
  createCredentials_idempotent (.str "abc123") _ rfl

/-- Claim C10.  `getOwners` — the only operation with no network fetch —
resolves with the very same normalized tree under both `raw` and
`normalized` (root `scm`/`categories`/`timestamp` fields included), rather
than the configured organization-source list. -/
theorem getOwners_raw_is_normalized (hostUrl : String) (t : Nat)
    (lc : String → String → Bool) (sources : List OrgSource) :
    (getOwners hostUrl t lc sources).raw = (getOwners hostUrl t lc sources).normalized
    ∧ (getOwners hostUrl t lc sources).raw.scm = "github"
    ∧ (getOwners hostUrl t lc sources).raw.categories = "owners"
    ∧ (getOwners hostUrl t lc sources).raw.timestamp = t :=
  ⟨rfl, rfl, rfl, rfl⟩

/-- Claim C7.  Every canonical field produced by the per-category mapping
functions defaults deterministically when the raw field is absent: numeric
id to `-1`, strings (name, description, url, avatar url, dates, …) to `""`,
booleans (`private`, `fork`) to `false`, the `repo_files` object to `{}`. -/
theorem normalize_defaults (repo : RawRepo) (user : UserObj) :
    (s_NORMALIZE_REPO { repo with id := none }).id = -1
    ∧ (s_NORMALIZE_REPO { repo with name := none }).name = ""
    ∧ (s_NORMALIZE_REPO { repo with full_name := none }).full_name = ""
    ∧ (s_NORMALIZE_REPO { repo with html_url := none }).url = ""
    ∧ (s_NORMALIZE_REPO { repo with description := none }).description = ""
    ∧ (s_NORMALIZE_REPO { repo with created_at := none }).created_at = ""
    ∧ (s_NORMALIZE_REPO { repo with updated_at := none }).updated_at = ""
    ∧ (s_NORMALIZE_REPO { repo with pushed_at := none }).pushed_at = ""
    ∧ (s_NORMALIZE_REPO { repo with git_url := none }).git_url = ""
    ∧ (s_NORMALIZE_REPO { repo with ssh_url := none }).ssh_url = ""
    ∧ (s_NORMALIZE_REPO { repo with clone_url := none }).clone_url = ""
    ∧ (s_NORMALIZE_REPO { repo with default_branch := none }).default_branch = ""
    ∧ (s_NORMALIZE_REPO { repo with priv := none }).priv = false
    ∧ (s_NORMALIZE_REPO { repo with fork := none }).fork = false
    ∧ (s_NORMALIZE_REPO { repo with repo_files := none }).repo_files = []
    ∧ (s_NORMALIZE_USER { user with id := none }).id = some (-1)
    ∧ (s_NORMALIZE_USER { user with login := none }).name = some ""
    ∧ (s_NORMALIZE_USER { user with html_url := none }).url = some ""
    ∧ (s_NORMALIZE_USER { user with avatar_url := none }).avatar_url = some "" := by
  refine ⟨rfl, rfl, rfl, rfl, rfl, rfl, rfl, rfl, rfl, rfl, rfl, rfl, rfl, rfl, rfl,
    rfl, rfl, rfl, rfl⟩

/-- Claim C5.  A statistics response shaped as the async-compute
placeholder (an object carrying `meta`, not a completed array) makes the
fetch callback set `_resultsPending := true` on the repo's stats object,
and the stats normalizer passes a pending `contributors` value through
unchanged instead of running the per-contributor user-normalization path. -/
theorem pendingStats_flag_and_passthrough (s s2 : Stats) (category : String)
    (h2 : s2.contributors = some .meta202) :
    (applyStatResult s category .meta202)._resultsPending = true
    ∧ (s_NORMALIZE_STATS s2).1.contributors = some .meta202 := by
  constructor
  · show (storeStat { s with _resultsPending := true } category .meta202)._resultsPending = true
    unfold storeStat
    split_ifs <;> rfl
  · simp [s_NORMALIZE_STATS, h2, normalizeContribResp]

/-- Witness for C5: a one-category placeholder response. -/
theorem pendingStats_flag_and_passthrough_witness :
    ({ contributors := some .meta202 } : Stats).contributors = some .meta202
    ∧ (applyStatResult {} "contributors" .meta202)._resultsPending = true
    ∧ (s_NORMALIZE_STATS { contributors := some .meta202 }).1.contributors
        = some .meta202 :=
  ⟨rfl, (pendingStats_flag_and_passthrough {} { contributors := some .meta202 }
      "contributors" rfl).1,
    (pendingStats_flag_and_passthrough {} { contributors := some .meta202 }
      "contributors" rfl).2⟩

/-- Looking up a key of an association list built by mapping a function
over the key list returns that function's value at the key. -/
theorem assocLookup_map (paths : List String) (g : String → FileResp)
    (p : String) (hp : p ∈ paths) :
    assocLookup (paths.map fun q => (q, g q)) p = some (g p) := by
  induction paths with
  | nil => cases hp
  | cons q rest ih =>
    by_cases hq : q = p
    · subst hq
      simp [assocLookup]
    · rcases List.mem_cons.mp hp with h | h
      · exact absurd h.symm hq
      · simpa [assocLookup, hq] using ih h

/-- Claim C8.  For every repository and requested file path, the side fetch
requests exactly `rawUrlPrefix + full_name + "/" + default_branch + "/" +
path`, records the `{statusCode, body}` response verbatim under
`repo_files[path]`, and — whatever the response status, 404 included — the
stage resolves (first conjunct: the join is `.ok` for every transport). -/
theorem repoFileFetch_url_and_verbatim (rawUrl : String) (paths : List String)
    (fetchFile : String → FileResp) (repos : List RepoF) (repo : RepoF)
    (hr : repo ∈ repos) (p : String) (hp : p ∈ paths) :
    s_CREATE_REPO_FILE_PROMISES rawUrl paths fetchFile repos
        = .ok (repos.map (s_PROCESS_REPO_FILES rawUrl paths fetchFile))
    ∧ s_PROCESS_REPO_FILES rawUrl paths fetchFile repo
        ∈ repos.map (s_PROCESS_REPO_FILES rawUrl paths fetchFile)
    ∧ assocLookup (s_PROCESS_REPO_FILES rawUrl paths fetchFile repo).repo_files p
        = some (fetchFile
            (rawUrl ++ repo.full_name ++ "/" ++ repo.default_branch ++ "/" ++ p)) :=
  ⟨rfl, List.mem_map_of_mem _ hr,
    assocLookup_map paths (fun q => fetchFile (repoFileUrl rawUrl repo q)) p hp⟩

/-- Witness for C8: a mocked 404 on `package.json` for `org/repo@main`. -/
theorem repoFileFetch_url_and_verbatim_witness :
    (⟨"org/repo", "main", []⟩ : RepoF) ∈ [(⟨"org/repo", "main", []⟩ : RepoF)]
    ∧ "package.json" ∈ ["package.json"]
    ∧ assocLookup
        (s_PROCESS_REPO_FILES "https://raw.githubusercontent.com/" ["package.json"]
          (fun _ => ⟨404, "Not Found"⟩) ⟨"org/repo", "main", []⟩).repo_files
        "package.json"
        = some ⟨404, "Not Found"⟩ :=
  ⟨List.mem_singleton.mpr rfl, List.mem_singleton.mpr rfl,
    (repoFileFetch_url_and_verbatim "https://raw.githubusercontent.com/"
      ["package.json"] (fun _ => ⟨404, "Not Found"⟩) [⟨"org/repo", "main", []⟩]
      ⟨"org/repo", "main", []⟩ (List.mem_singleton.mpr rfl) "package.json"
      (List.mem_singleton.mpr rfl)).2.2⟩

/-- Claim C3, counterexample.  With the clock fixed at `0`, normalizing
`[cexStats]` along the `stats` path mutates the raw input (the nested
contributor's `author` record is overwritten with its normalized form), and
a second call on that same input produces a different output — refuting
both halves of the purity claim. -/
theorem createNormalized_stats_impure :
    (createNormalizedStats 0 [cexStats]).2 ≠ [cexStats]
    ∧ (createNormalizedStats 0 ((createNormalizedStats 0 [cexStats]).2)).1
        ≠ (createNormalizedStats 0 [cexStats]).1 := by
  refine ⟨?_, ?_⟩ <;> decide

/-- A contributor without an `author` field is untouched by the in-place
author normalization. -/
theorem mutateContrib_id (c : Contributor) (h : c.author = none) :
    mutateContrib c = c := by
  cases c
  simp_all [mutateContrib]

/-- Mapping the in-place author normalization over an author-free
contributor list is the identity. -/
theorem map_mutateContrib_id (xs : List Contributor)
    (hall : ∀ c ∈ xs, c.author = none) : xs.map mutateContrib = xs := by
  induction xs with
  | nil => rfl
  | cons c rest ih =>
    have hc0 := hall c (List.mem_cons_self c rest)
    have hrest : ∀ c ∈ rest, c.author = none := fun c hm =>
      hall c (List.mem_cons_of_mem _ hm)
    simp [mutateContrib_id c hc0, ih hrest]

/-- On a stats value with no contributor authors, `s_NORMALIZE_STATS`
leaves the raw input unchanged. -/
theorem normalizeStats_raw_unchanged (s : Stats) (h : noContribAuthors s = true) :
    (s_NORMALIZE_STATS s).2 = s := by
  unfold s_NORMALIZE_STATS
  cases hc : s.contributors with
  | none =>
    cases s
    simp_all
  | some v =>
    cases v with
    | contribArr m xs =>
      have hall : ∀ c ∈ xs, c.author = none := by
        unfold noContribAuthors at h
        rw [hc] at h
        simpa [List.all_eq_true, decide_eq_true_eq] using h
      have hmap : xs.map mutateContrib = xs := map_mutateContrib_id xs hall
      cases s
      simp_all [mutateContribResp]
    | meta202 =>
      cases s
      simp_all [mutateContribResp]
    | userArr m xs =>
      cases s
      simp_all [mutateContribResp]
    | dataArr m xs =>
      cases s
      simp_all [mutateContribResp]

/-- Claim C3, amended.  Normalization along the `stats` path is pure except
that it overwrites each raw contributor's `author` record in place with its
normalized form: on every raw input whose contributor entries carry no
`author` field, the raw input is left unchanged and a second call (same
fixed clock) yields an identical tree. -/
theorem createNormalized_stats_pure_without_authors (t : Nat) (r : List Stats)
    (h : ∀ s ∈ r, noContribAuthors s = true) :
    (createNormalizedStats t r).2 = r
    ∧ (createNormalizedStats t ((createNormalizedStats t r).2)).1
        = (createNormalizedStats t r).1 := by
  have h2 : (createNormalizedStats t r).2 = r := by
    unfold createNormalizedStats
    simp only [List.map_map]
    have : ∀ s ∈ r, (Prod.snd ∘ s_NORMALIZE_STATS) s = id s := fun s hs =>
      normalizeStats_raw_unchanged s (h s hs)
    rw [List.map_congr_left this, List.map_id]
  exact ⟨h2, by rw [h2]⟩

/-- Witness for the amended C3 at clock `5` on `[pureStats]`. -/
theorem createNormalized_stats_pure_without_authors_witness :
    (createNormalizedStats 5 [pureStats]).2 = [pureStats]
    ∧ (createNormalizedStats 5 ((createNormalizedStats 5 [pureStats]).2)).1
        = (createNormalizedStats 5 [pureStats]).1 :=
  createNormalized_stats_pure_without_authors 5 [pureStats] (by decide)

/-- Claim C4, counterexample.  `"bogus"` is not a known statistic category
and survives wildcard expansion unchanged, yet a call over an aggregate
whose organization has no repositories resolves successfully: the category
check lives inside the per-repository loop, so it never runs. -/
theorem getOrgRepoStats_unknown_ok_without_repos :
    s_STAT_CATEGORY_TO_FUNCT "bogus" = none
    ∧ expandCategories ["bogus"] = ["bogus"]
    ∧ getOrgRepoStats ["bogus"] [{ login := "org1", repos := [] }]
        (fun _ _ _ => .error "unused")
      = .ok [{ login := "org1", repos := [] }] :=
  ⟨rfl, rfl, rfl⟩

/-- The per-repo category scan rejects with the unknown-category error of
the first unknown category, independently of the repo's indices. -/
theorem buildRepoReqs_error (cats : List String)
    (h : ∃ c ∈ cats, s_STAT_CATEGORY_TO_FUNCT c = none) :
    ∃ c ∈ cats, s_STAT_CATEGORY_TO_FUNCT c = none ∧
      ∀ oIdx rIdx, buildRepoReqs oIdx rIdx cats = .error (unknownCatMsg c) := by
  induction cats with
  | nil => simp at h
  | cons c rest ih =>
    by_cases hk : (s_STAT_CATEGORY_TO_FUNCT c).isSome
    · have h' : ∃ c' ∈ rest, s_STAT_CATEGORY_TO_FUNCT c' = none := by
        rcases h with ⟨c', hc', hn⟩
        rcases List.mem_cons.mp hc' with rfl | hm
        · rw [hn] at hk
          simp at hk
        · exact ⟨c', hm, hn⟩
      rcases ih h' with ⟨c', hm, hn, herr⟩
      refine ⟨c', List.mem_cons_of_mem _ hm, hn, fun oIdx rIdx => ?_⟩
      unfold buildRepoReqs
      rw [if_pos hk, herr oIdx rIdx]
    · refine ⟨c, List.mem_cons_self _ _, ?_, fun oIdx rIdx => ?_⟩
      · cases hcc : s_STAT_CATEGORY_TO_FUNCT c with
        | none => rfl
        | some f => rw [hcc] at hk; simp at hk
      · unfold buildRepoReqs
        rw [if_neg hk]

/-- A nonempty repo list propagates the category-scan rejection. -/
theorem buildRepoPhase_error (oIdx rIdx : Nat) (repos : List RepoR)
    (cats : List String) (hr : repos ≠ []) (c : String)
    (herr : ∀ o r, buildRepoReqs o r cats = .error (unknownCatMsg c)) :
    buildRepoPhase oIdx rIdx repos cats = .error (unknownCatMsg c) := by
  cases repos with
  | nil => exact absurd rfl hr
  | cons r rest =>
    unfold buildRepoPhase
    rw [herr oIdx rIdx]

/-- An aggregate containing at least one repository propagates the
category-scan rejection through the synchronous loop. -/
theorem buildOrgPhase_error (oIdx : Nat) (orgs : List OrgR) (cats : List String)
    (h1 : ∃ o ∈ orgs, o.repos ≠ []) (c : String)
    (herr : ∀ o r, buildRepoReqs o r cats = .error (unknownCatMsg c)) :
    buildOrgPhase oIdx orgs cats = .error (unknownCatMsg c) := by
  induction orgs generalizing oIdx with
  | nil => simp at h1
  | cons o rest ih =>
    by_cases ho : o.repos = []
    · have h1' : ∃ o' ∈ rest, o'.repos ≠ [] := by
        rcases h1 with ⟨o', ho', hne⟩
        rcases List.mem_cons.mp ho' with rfl | hm
        · exact absurd ho hne
        · exact ⟨o', hm, hne⟩
      unfold buildOrgPhase
      rw [ho]
      have hnil : buildRepoPhase oIdx 0 ([] : List RepoR) cats = .ok ([], []) := rfl
      rw [hnil, ih (oIdx + 1) h1']
    · unfold buildOrgPhase
      rw [buildRepoPhase_error oIdx 0 o.repos cats ho c herr]

/-- Claim C4, amended.  Whenever the fetched aggregate contains at least
one repository, a categories list that (after wildcard expansion) contains
an unknown name rejects the whole operation with the unknown-category
error; with no repositories the check never runs (see the counterexample). -/
theorem getOrgRepoStats_unknown_category_fails (cats : List String)
    (orgs : List OrgR) (fetch : Nat → Nat → String → Except String StatResp)
    (h1 : ∃ o ∈ orgs, o.repos ≠ [])
    (h2 : ∃ c ∈ expandCategories cats, s_STAT_CATEGORY_TO_FUNCT c = none) :
    ∃ c ∈ expandCategories cats, s_STAT_CATEGORY_TO_FUNCT c = none ∧
      getOrgRepoStats cats orgs fetch = .error (unknownCatMsg c) := by
  rcases buildRepoReqs_error (expandCategories cats) h2 with ⟨c, hm, hn, herr⟩
  refine ⟨c, hm, hn, ?_⟩
  have hb := buildOrgPhase_error 0 orgs (expandCategories cats) h1 c herr
  simp only [getOrgRepoStats]
  rw [hb]

/-- Witness for the amended C4: one org with one repo, categories
`["contributors", "bogus"]`. -/
theorem getOrgRepoStats_unknown_category_fails_witness :
    ∃ c ∈ expandCategories ["contributors", "bogus"],
      s_STAT_CATEGORY_TO_FUNCT c = none ∧
        getOrgRepoStats ["contributors", "bogus"]
            [{ login := "org1", repos := [{ name := "repo1" }] }]
            (fun _ _ _ => .ok .meta202)
          = .error (unknownCatMsg c) :=
  getOrgRepoStats_unknown_category_fails ["contributors", "bogus"]
    [{ login := "org1", repos := [{ name := "repo1" }] }]
    (fun _ _ _ => .ok .meta202)
    ⟨{ login := "org1", repos := [{ name := "repo1" }] }, by simp, by simp⟩
    ⟨"bogus", by simp [expandCategories], rfl⟩

/-- Invariants of the dedup loop: every kept entry's key is new relative to
`seen` and is the first occurrence of its key in the remaining stream, and
the kept keys are pairwise distinct. -/
theorem dedupGo_spec (us : List UserObj) (seen : List String) :
    (∀ u ∈ dedupByLoginGo us seen,
        loginKey u ∉ seen
        ∧ us.find? (fun v => loginKey v == loginKey u) = some u)
    ∧ ((dedupByLoginGo us seen).map loginKey).Nodup := by
  induction us generalizing seen with
  | nil => simp [dedupByLoginGo]
  | cons w rest ih =>
    by_cases hk : loginKey w ∈ seen
    · have ihs := ih seen
      refine ⟨fun u hu => ?_, ?_⟩
      · have hu' : u ∈ dedupByLoginGo rest seen := by
          simpa [dedupByLoginGo, hk] using hu
        rcases ihs.1 u hu' with ⟨hnot, hfind⟩
        have hne : loginKey w ≠ loginKey u := fun he => hnot (he ▸ hk)
        refine ⟨hnot, ?_⟩
        rw [List.find?_cons_of_neg _ (by simp [beq_eq_false_iff_ne.mpr hne]), hfind]
      · simpa [dedupByLoginGo, hk] using ihs.2
    · have ihs := ih (loginKey w :: seen)
      refine ⟨fun u hu => ?_, ?_⟩
      · have hu' : u = w ∨ u ∈ dedupByLoginGo rest (loginKey w :: seen) := by
          simpa [dedupByLoginGo, hk] using hu
        rcases hu' with rfl | hu'
        · exact ⟨hk, List.find?_cons_of_pos _ (by simp)⟩
        · rcases ihs.1 u hu' with ⟨hnot, hfind⟩
          have hne : loginKey u ≠ loginKey w := fun he => hnot (by simp [he])
          have hnot' : loginKey u ∉ seen := fun hin => hnot (List.mem_cons_of_mem _ hin)
          refine ⟨hnot', ?_⟩
          rw [List.find?_cons_of_neg _ (by simp [beq_eq_false_iff_ne.mpr hne.symm]), hfind]
      · have hkeys : ∀ k ∈ (dedupByLoginGo rest (loginKey w :: seen)).map loginKey,
            k ≠ loginKey w := by
          intro k hkm
          rcases List.mem_map.mp hkm with ⟨u, hu, rfl⟩
          exact fun he => (ihs.1 u hu).1 (by simp [he])
        have : (dedupByLoginGo (w :: rest) seen).map loginKey
            = loginKey w :: (dedupByLoginGo rest (loginKey w :: seen)).map loginKey := by
          simp [dedupByLoginGo, hk]
        rw [this]
        exact List.nodup_cons.mpr ⟨fun hin => hkeys _ hin rfl, ihs.2⟩

/-- Completeness of the dedup loop: every streamed user whose key is not in
`seen` is represented in the output by an entry with the same key. -/
theorem dedupGo_complete (us : List UserObj) (seen : List String) :
    ∀ v ∈ us, loginKey v ∉ seen →
      ∃ u ∈ dedupByLoginGo us seen, loginKey u = loginKey v := by
  induction us generalizing seen with
  | nil => simp
  | cons w rest ih =>
    intro v hv hnot
    by_cases hk : loginKey w ∈ seen
    · rcases List.mem_cons.mp hv with rfl | hv'
      · exact absurd hk hnot
      · rcases ih seen v hv' hnot with ⟨u, hu, he⟩
        exact ⟨u, by simpa [dedupByLoginGo, hk] using hu, he⟩
    · rcases List.mem_cons.mp hv with rfl | hv'
      · exact ⟨v, by simp [dedupByLoginGo, hk], rfl⟩
      · by_cases heq : loginKey v = loginKey w
        · exact ⟨w, by simp [dedupByLoginGo, hk], heq.symm⟩
        · have hnot' : loginKey v ∉ loginKey w :: seen := by
            simp [heq, hnot]
          rcases ih (loginKey w :: seen) v hv' hnot' with ⟨u, hu, he⟩
          exact ⟨u, by simp [dedupByLoginGo, hk, hu], he⟩

/-- The dedup-then-sort pipeline satisfies the claimed flattening shape for
any consistent locale comparator. -/
theorem flatten_pipeline_spec (lc : String → String → Bool) (us : List UserObj)
    (htrans : ∀ a b c, lc a b = true → lc b c = true → lc a c = true)
    (htotal : ∀ a b, lc a b = true ∨ lc b a = true) :
    flattenSpec lc us (sortByLogin lc (dedupByLogin us)) := by
  have hperm : List.Perm (sortByLogin lc (dedupByLogin us)) (dedupByLogin us) :=
    List.perm_insertionSort _ _
  have hd := dedupGo_spec us []
  refine ⟨?_, ?_, ?_, ?_⟩
  · exact (hperm.map loginKey).nodup_iff.mpr hd.2
  · intro u hu
    have hu' : u ∈ dedupByLogin us := hperm.mem_iff.mp hu
    exact (hd.1 u hu').2
  · intro v hv
    rcases dedupGo_complete us [] v hv (by simp) with ⟨u, hu, he⟩
    exact ⟨u, hperm.mem_iff.mpr hu, he⟩
  · haveI : IsTotal UserObj fun a b => lc (loginKey a) (loginKey b) = true :=
      ⟨fun a b => htotal (loginKey a) (loginKey b)⟩
    haveI : IsTrans UserObj fun a b => lc (loginKey a) (loginKey b) = true :=
      ⟨fun a b c => htrans (loginKey a) (loginKey b) (loginKey c)⟩
    exact List.sorted_insertionSort _ _

/-- Claim C6.  For every org/repo aggregate (duplicate logins included) and
every consistent locale comparator, each flattening operation returns one
entry per distinct login, each kept entry being the first occurrence in
iteration order, covering every streamed login, sorted by the comparator on
logins. -/
theorem flattening_dedup_sort (lc : String → String → Bool) (orgs : List OrgC)
    (htrans : ∀ a b c, lc a b = true → lc b c = true → lc a c = true)
    (htotal : ∀ a b, lc a b = true ∨ lc b a = true) :
    flattenSpec lc (collabStream orgs) (getCollaborators lc orgs)
    ∧ flattenSpec lc (contribStream orgs) (getContributors lc orgs)
    ∧ flattenSpec lc (memberStream orgs) (getMembers lc orgs) :=
  ⟨flatten_pipeline_spec lc (collabStream orgs) htrans htotal,
    flatten_pipeline_spec lc (contribStream orgs) htrans htotal,
    flatten_pipeline_spec lc (memberStream orgs) htrans htotal⟩

/-- Witness for C6: the three flattening shapes on `cexOrgs` under
lexicographic comparison. -/
theorem flattening_dedup_sort_witness :
    flattenSpec lexLc (collabStream cexOrgs) (getCollaborators lexLc cexOrgs)
    ∧ flattenSpec lexLc (contribStream cexOrgs) (getContributors lexLc cexOrgs)
    ∧ flattenSpec lexLc (memberStream cexOrgs) (getMembers lexLc cexOrgs) :=
  flattening_dedup_sort lexLc cexOrgs
    (fun a b c hab hbc => by
      simp only [lexLc, decide_eq_true_eq] at hab hbc ⊢
      exact le_trans hab hbc)
    (fun a b => by
      simpa [lexLc, decide_eq_true_eq] using le_total a b)

end InspectOrgs
